import Mathlib

/-!
# Verification of the wallet-signal bot's snapshot / diff / poller core

Shallow embedding of `hyperdash_telegram_bot_mtproto_coinglass.py`:
the diff engine `compare_and_generate_events`, the snapshot resolver
`detect_and_build_snapshots` with its four provider fetchers, the state
helpers `get_wallet_state` / `set_wallet_state`, and the per-address
poll cycle `process_wallet_sync`.

Python `float` magnitudes are modelled as `ℚ`; Python dicts as
association lists in insertion order (lookups take the first match,
mirroring unique-key dicts); absent JSON fields as `Option`.
-/

namespace SignalBot

/-- A derivatives position as stored in a snapshot's `positions` list:
`{"symbol": ..., "side": ..., "size_usd": ...}`. -/
structure Position where
  symbol : String
  side : String
  size_usd : ℚ
deriving DecidableEq, Repr

/-- The identity key used by the diff engine: `(p["symbol"], p["side"])`. -/
def posKey (p : Position) : String × String := (p.symbol, p.side)

/-- A provider snapshot. Fields other than `address`/`source` are `Option`
because the Python fetchers return plain dicts that may omit keys
(`fetch_from_dexscreener_addr` omits `positions` and `usd_total`,
`fetch_from_hyperdash` omits `tokens` and `usd_total`). -/
structure Snapshot where
  address : String
  usd_total : Option ℚ
  tokens : Option (List (String × ℚ))
  positions : Option (List Position)
  source : String
deriving DecidableEq, Repr

/-- The persisted per-address record built in `process_wallet_sync`
(lines 510-515). `updated_at` is `Option` because the default state
returned by `get_wallet_state` for an unknown address has no
`updated_at` key. -/
structure WalletState where
  updated_at : Option String
  usd_total : ℚ
  tokens : List (String × ℚ)
  positions : List Position
deriving DecidableEq, Repr

/-- `{"tokens": {}, "positions": [], "usd_total": 0.0}` — the default
returned by `get_wallet_state` for an address with no stored state. -/
def defaultWalletState : WalletState :=
  { updated_at := none, usd_total := 0, tokens := [], positions := [] }

/-- Dict lookup returning the value or `none`: `d.get(k)`. -/
def dictFind (l : List (String × ℚ)) (k : String) : Option ℚ :=
  match l with
  | [] => none
  | (k', v) :: t => if k' = k then some v else dictFind t k

/-- `d.get(k, 0)` — dict lookup with default `0`, as used for token values. -/
def tokenGet (l : List (String × ℚ)) (k : String) : ℚ :=
  (dictFind l k).getD 0

/-- `k in d` — dict key membership. -/
def hasKey (l : List (String × ℚ)) (k : String) : Bool :=
  (dictFind l k).isSome

/-- Deduplication keeping first occurrences (computable by structural
recursion, unlike `List.dedup`). -/
def dedupKeys : List String → List String
  | [] => []
  | k :: t => k :: (dedupKeys t).filter (fun x => x != k)

/-- `set(prev_tokens) | set(now_tokens)` — the union of the two key sets.
Python's set iteration order is unspecified; we fix previous keys first,
then new current keys, deduplicated. -/
def unionKeys (prevTokens nowTokens : List (String × ℚ)) : List String :=
  dedupKeys (prevTokens.map Prod.fst ++ nowTokens.map Prod.fst)

/-- `abs(x)` on ℚ, kernel-reducible (Mathlib's lattice `|·|` is not). -/
def ratAbs (q : ℚ) : ℚ := if q < 0 then -q else q

theorem ratAbs_eq_abs (q : ℚ) : ratAbs q = |q| := by
  unfold ratAbs
  rcases lt_or_le q 0 with h | h
  · simp [h, abs_of_neg h]
  · simp [not_lt.mpr h, abs_of_nonneg h]

/-- Events produced by `compare_and_generate_events`, modelled
structurally instead of as formatted strings. -/
inductive Event where
  | newToken (symbol : String) (value : ℚ)
  | buy (symbol : String) (prevVal newVal : ℚ)
  | sell (symbol : String) (prevVal newVal : ℚ)
  | balance (prevTotal newTotal : ℚ)
  | openPos (symbol side : String) (size : ℚ)
  | increase (symbol side : String) (oldSize newSize : ℚ)
  | closePos (symbol side : String) (size : ℚ)
deriving DecidableEq, Repr

/-- The per-entry check of stage 1: `if tok not in prev_tokens`. -/
def newTokenEvent (prevTokens : List (String × ℚ)) (kv : String × ℚ) :
    Option Event :=
  if hasKey prevTokens kv.1 then none else some (.newToken kv.1 kv.2)

/-- Stage 1 (lines 454-456): one "New token" event for every key of
`now_tokens` that is not a key of `prev_tokens`. No magnitude
threshold is applied. -/
def newTokenEvents (prevTokens nowTokens : List (String × ℚ)) : List Event :=
  nowTokens.filterMap (newTokenEvent prevTokens)

/-- The classification applied to one symbol of the key union
(lines 459-466): skip when `abs(nv - pv) < 1`, else BUY when `nv > pv`,
SELL when `nv < pv`. -/
def deltaEvent (prevTokens nowTokens : List (String × ℚ)) (tok : String) :
    Option Event :=
  if ratAbs (tokenGet nowTokens tok - tokenGet prevTokens tok) < 1 then none
  else if tokenGet prevTokens tok < tokenGet nowTokens tok then
    some (.buy tok (tokenGet prevTokens tok) (tokenGet nowTokens tok))
  else if tokenGet nowTokens tok < tokenGet prevTokens tok then
    some (.sell tok (tokenGet prevTokens tok) (tokenGet nowTokens tok))
  else none

/-- Stage 2 (lines 458-466): classify every symbol of the key union. -/
def tokenDeltaEvents (prevTokens nowTokens : List (String × ℚ)) : List Event :=
  (unionKeys prevTokens nowTokens).filterMap (deltaEvent prevTokens nowTokens)

/-- Stage 3 (lines 469-470): a single balance event when
`abs(now_total - prev_total) > 5`. -/
def balanceEvents (prevTotal nowTotal : ℚ) : List Event :=
  if 5 < ratAbs (nowTotal - prevTotal) then [.balance prevTotal nowTotal]
  else []

/-- `prev_map = {(p["symbol"], p["side"]): p for p in prev_positions}`
(line 473): a dict comprehension, so a later duplicate key overrides an
earlier one — lookup returns the last matching position. -/
def prevMapGet (prevPositions : List Position) (k : String × String) :
    Option Position :=
  match prevPositions with
  | [] => none
  | p :: t =>
      match prevMapGet t k with
      | some q => some q
      | none => if posKey p = k then some p else none

/-- The per-current-position step of stage 4a: OPEN when its key is
absent from `prev_map`, INCREASE when `size_usd > old * 1.05`. -/
def openIncEvent (prevPositions : List Position) (p : Position) :
    Option Event :=
  match prevMapGet prevPositions (posKey p) with
  | none => some (.openPos p.symbol p.side p.size_usd)
  | some old =>
      if old.size_usd * (105 / 100) < p.size_usd then
        some (.increase p.symbol p.side old.size_usd p.size_usd)
      else none

/-- Stage 4a (lines 475-482). -/
def openIncreaseEvents (prevPositions nowPositions : List Position) :
    List Event :=
  nowPositions.filterMap (openIncEvent prevPositions)

/-- The per-previous-position step of stage 4b: CLOSE when no current
position has the same symbol and side. -/
def closeEvent (nowPositions : List Position) (pp : Position) :
    Option Event :=
  if nowPositions.any (fun p => p.symbol = pp.symbol && p.side = pp.side) then
    none
  else some (.closePos pp.symbol pp.side pp.size_usd)

/-- Stage 4b (lines 484-487). -/
def closeEvents (prevPositions nowPositions : List Position) : List Event :=
  prevPositions.filterMap (closeEvent nowPositions)

/-- `compare_and_generate_events` (lines 440-489) as a pure function of
the previous stored state and the current snapshot. Absent snapshot
fields are defaulted exactly as the code does with
`snap.get("tokens", {})`, `snap.get("positions", [])` and
`float(snap.get("usd_total") or 0)`. -/
def compare_and_generate_events (prev : WalletState) (snap : Snapshot) :
    List Event :=
  let prevTokens := prev.tokens
  let nowTokens := snap.tokens.getD []
  let prevPositions := prev.positions
  let nowPositions := snap.positions.getD []
  let prevTotal := prev.usd_total
  let nowTotal := snap.usd_total.getD 0
  newTokenEvents prevTokens nowTokens
    ++ tokenDeltaEvents prevTokens nowTokens
    ++ balanceEvents prevTotal nowTotal
    ++ openIncreaseEvents prevPositions nowPositions
    ++ closeEvents prevPositions nowPositions

/-! ## Providers and resolver

Each fetcher is embedded as a pure function of its parsed HTTP response.
`none` as the response models every locally-recovered failure (network
error, non-2xx where checked, JSON parse failure, missing regex match):
the Python code catches these and returns `None`. String-valued fields
extracted with truthiness fallbacks (`p.get("symbol") or p.get("market")`,
`a.get("symbol") or a.get("name")`, falsy-empty strings) are modelled as
already-resolved `Option String` (`none` when no truthy value exists). -/

/-- One entry of dexscreener's `pairs` array, after parsing:
base-token symbol and `liquidity.usd`. -/
structure DexPair where
  base : Option String
  liquidityUsd : ℚ
deriving DecidableEq, Repr

/-- One entry of debank's `wallet_asset_list`. -/
structure DebankAsset where
  symbol : Option String
  price : ℚ
  amount : ℚ
deriving DecidableEq, Repr

/-- Parsed debank response: `data.total_usd_value` and the asset list. -/
structure DebankData where
  totalUsdValue : ℚ
  assets : List DebankAsset
deriving DecidableEq, Repr

/-- One entry of coinglass `/api/exchange/assets` data. -/
structure CoinglassAsset where
  symbol : String
  balanceUsd : ℚ
deriving DecidableEq, Repr

/-- One entry of coinglass `/api/hyperliquid/position` data. -/
structure CoinglassPos where
  symbol : String
  positionValueUsd : ℚ
  positionSize : ℚ
deriving DecidableEq, Repr

/-- Parsed coinglass responses: `assetsOk`/`positionsOk` model the
`r.ok` checks (a non-ok or failing positions request leaves `positions`
empty, an inner exception is caught). -/
structure CoinglassResp where
  assetsOk : Bool
  assets : List CoinglassAsset
  positionsOk : Bool
  positions : List CoinglassPos
deriving DecidableEq, Repr

/-- One entry of the hyperdash `"positions"` JSON array. -/
structure HyperdashItem where
  symbol : String
  notional : ℚ
  isLong : Bool
deriving DecidableEq, Repr

/-- `tokens[sym] = tokens.get(sym, 0) + v` — dict accumulation keeping
insertion order. -/
def accumToken (acc : List (String × ℚ)) (sym : String) (v : ℚ) :
    List (String × ℚ) :=
  if hasKey acc sym then
    acc.map (fun kv => if kv.1 = sym then (kv.1, kv.2 + v) else kv)
  else acc ++ [(sym, v)]

/-- `fetch_from_dexscreener_addr` (lines 279-296): aggregate pair
liquidity per base symbol; return a snapshot — with no `positions` and
no `usd_total` key — only when at least one token was found. -/
def fetch_from_dexscreener_addr (address : String)
    (resp : Option (List DexPair)) : Option Snapshot :=
  match resp with
  | none => none
  | some pairs =>
      let tokens := pairs.foldl
        (fun acc p =>
          match p.base with
          | none => acc
          | some b => accumToken acc b p.liquidityUsd)
        []
      if tokens.isEmpty then none
      else some { address := address, usd_total := none,
                  tokens := some tokens, positions := none,
                  source := "dexscreener" }

/-- `fetch_from_debank` (lines 299-324): on a parsed response, always
returns a snapshot with `usd_total`, `tokens` and an empty `positions`
list; assets without a truthy symbol are skipped. -/
def fetch_from_debank (address : String) (resp : Option DebankData) :
    Option Snapshot :=
  match resp with
  | none => none
  | some d =>
      let tokens := d.assets.foldl
        (fun acc a =>
          match a.symbol with
          | none => acc
          | some s => accumToken acc s (a.price * a.amount))
        []
      some { address := address, usd_total := some d.totalUsdValue,
             tokens := some tokens, positions := some [],
             source := "debank" }

/-- `side` classification in `fetch_from_coinglass` (lines 365-371). -/
def coinglassSide (positionSize : ℚ) : String :=
  if 0 < positionSize then "long"
  else if positionSize < 0 then "short"
  else ""

/-- Position filtering in `fetch_from_coinglass` (lines 372-374):
keep `abs(size) >= MIN_POSITION_VALUE_USD`, store `abs(size)`. -/
def coinglassPositions (minPos : ℚ) (items : List CoinglassPos) :
    List Position :=
  items.filterMap fun it =>
    if minPos ≤ ratAbs it.positionValueUsd then
      some { symbol := it.symbol, side := coinglassSide it.positionSize,
             size_usd := ratAbs it.positionValueUsd }
    else none

/-- `fetch_from_coinglass` (lines 327-387): requires an API key, sums
asset balances into `tokens`/`usd_total`, adds filtered positions and
their absolute sizes; always returns all snapshot fields. -/
def fetch_from_coinglass (hasApiKey : Bool) (minPos : ℚ) (address : String)
    (resp : Option CoinglassResp) : Option Snapshot :=
  if !hasApiKey then none
  else
    match resp with
    | none => none
    | some r =>
        let assets := if r.assetsOk then r.assets else []
        let tokens := assets.foldl
          (fun acc a => accumToken acc a.symbol a.balanceUsd) []
        let assetTotal := (assets.map (·.balanceUsd)).sum
        let positions :=
          if r.positionsOk then coinglassPositions minPos r.positions else []
        let posTotal := (positions.map (·.size_usd)).sum
        some { address := address, usd_total := some (assetTotal + posTotal),
               tokens := some tokens, positions := some positions,
               source := "coinglass" }

/-- `fetch_from_hyperdash` (lines 390-418): keep items with
`notional >= MIN_POSITION_VALUE_USD`; return a snapshot — with no
`tokens` and no `usd_total` key — only when some position qualified. -/
def fetch_from_hyperdash (minPos : ℚ) (address : String)
    (resp : Option (List HyperdashItem)) : Option Snapshot :=
  match resp with
  | none => none
  | some arr =>
      let positions := arr.filterMap fun p =>
        if minPos ≤ p.notional then
          some { symbol := p.symbol,
                 side := if p.isLong then "long" else "short",
                 size_usd := p.notional }
        else none
      if positions.isEmpty then none
      else some { address := address, usd_total := none, tokens := none,
                  positions := some positions, source := "hyperdash" }

/-- The upstream responses available to the four providers during one
resolution attempt for one address. -/
structure ProviderResponses where
  hasApiKey : Bool
  coinglass : Option CoinglassResp
  debank : Option DebankData
  dexscreener : Option (List DexPair)
  hyperdash : Option (List HyperdashItem)
deriving DecidableEq, Repr

/-- The provider outputs in the fixed priority order of the tuple at
lines 423-428: coinglass, debank, dexscreener, hyperdash. -/
def providerResults (minPos : ℚ) (addr : String) (w : ProviderResponses) :
    List (Option Snapshot) :=
  [fetch_from_coinglass w.hasApiKey minPos addr w.coinglass,
   fetch_from_debank addr w.debank,
   fetch_from_dexscreener_addr addr w.dexscreener,
   fetch_from_hyperdash minPos addr w.hyperdash]

/-- Return the first non-`none` element. Every snapshot a provider
returns is a non-empty dict, so Python's truthiness test `if r:` is
exactly non-`None`-ness. -/
def firstSome : List (Option Snapshot) → Option Snapshot
  | [] => none
  | some r :: _ => some r
  | none :: rest => firstSome rest

/-- `detect_and_build_snapshots` (lines 422-436): try the providers in
order and return the first snapshot, verbatim. -/
def detect_and_build_snapshots (minPos : ℚ) (addr : String)
    (w : ProviderResponses) : Option Snapshot :=
  firstSome (providerResults minPos addr w)

/-! ## State store and the per-address poll cycle -/

/-- Python's `str.lower()` on the ASCII addresses the bot handles:
map each upper-case ASCII letter to its lower-case form. (Defined by
structural recursion over the characters so that it evaluates;
`String.toLower` itself does not kernel-reduce.) -/
def strLower (s : String) : String :=
  ⟨s.data.map fun c =>
    if 'A' ≤ c ∧ c ≤ 'Z' then Char.ofNat (c.toNat + 32) else c⟩

/-- The `state` dict lookup: `state.get(addr.lower(), default)`
(lines 134-135). -/
def get_wallet_state (st : List (String × WalletState)) (addr : String) :
    WalletState :=
  match st with
  | [] => defaultWalletState
  | (k, v) :: t => if k = strLower addr then v else get_wallet_state t addr

/-- Dict assignment `state[addr.lower()] = snap`: replace in place, or
append a new key. -/
def dictSet (st : List (String × WalletState)) (k : String)
    (v : WalletState) : List (String × WalletState) :=
  match st with
  | [] => [(k, v)]
  | (k', v') :: t =>
      if k' = k then (k, v) :: t else (k', v') :: dictSet t k v

/-- The observable bot state threaded through a poll cycle: the
in-memory `state` dict, its on-disk copy written by `save_state`, and
the events delivered so far via `send_signal_sync`. -/
structure BotState where
  mem : List (String × WalletState)
  disk : List (String × WalletState)
  sent : List Event
deriving DecidableEq, Repr

/-- `process_wallet_sync` (lines 502-524): resolve; on `None` return
unchanged; otherwise diff against the stored state, build the new
record (`updated_at`, `usd_total or 0`, `tokens` defaulted to `{}`,
`positions` defaulted to `[]`), store it (`set_wallet_state` mutates
the in-memory dict, then `save_state` → `_write_json`, which catches
any I/O error and only logs it — modelled by `writeOk`), then send
every event. -/
def process_wallet_sync (minPos : ℚ) (w : ProviderResponses)
    (writeOk : Bool) (now : String) (addr : String) (bs : BotState) :
    BotState :=
  match detect_and_build_snapshots minPos addr w with
  | none => bs
  | some snap =>
      let events := compare_and_generate_events (get_wallet_state bs.mem addr) snap
      let newState : WalletState :=
        { updated_at := some now,
          usd_total := snap.usd_total.getD 0,
          tokens := snap.tokens.getD [],
          positions := snap.positions.getD [] }
      let mem := dictSet bs.mem (strLower addr) newState
      { mem := mem,
        disk := if writeOk then mem else bs.disk,
        sent := bs.sent ++ events }

/-! ## Event classification helpers -/

/-- Is this a "new token" event? -/
def Event.isNewTokenEv : Event → Bool
  | .newToken _ _ => true
  | _ => false

/-- Is this a BUY event? -/
def Event.isBuyEv : Event → Bool
  | .buy _ _ _ => true
  | _ => false

/-- Is this an OPEN event? -/
def Event.isOpenEv : Event → Bool
  | .openPos _ _ _ => true
  | _ => false

/-- Is this a BUY or SELL event for the given token symbol? -/
def Event.isBuySellFor (tok : String) : Event → Bool
  | .buy s _ _ => s == tok
  | .sell s _ _ => s == tok
  | _ => false

/-- Is this a position event (OPEN/INCREASE/CLOSE) for the given
(symbol, side) key? -/
def Event.isPosEventFor (k : String × String) : Event → Bool
  | .openPos s sd _ => (s, sd) == k
  | .increase s sd _ _ => (s, sd) == k
  | .closePos s sd _ => (s, sd) == k
  | _ => false

/-- Is this a CLOSE event for the given (symbol, side) key? -/
def Event.isCloseFor (k : String × String) : Event → Bool
  | .closePos s sd _ => (s, sd) == k
  | _ => false

/-! ## Helper lemmas -/

theorem dedupKeys_nodup (l : List String) : (dedupKeys l).Nodup := by
  induction l with
  | nil => simp [dedupKeys]
  | cons k t ih =>
      simp only [dedupKeys, List.nodup_cons]
      refine ⟨fun hk => ?_, ih.filter _⟩
      have := List.of_mem_filter hk
      simp at this

theorem mem_dedupKeys {l : List String} {x : String} :
    x ∈ dedupKeys l ↔ x ∈ l := by
  induction l with
  | nil => simp [dedupKeys]
  | cons k t ih =>
      simp only [dedupKeys, List.mem_cons]
      constructor
      · rintro (rfl | hx)
        · exact Or.inl rfl
        · exact Or.inr (ih.mp (List.mem_of_mem_filter hx))
      · rintro (rfl | hx)
        · exact Or.inl rfl
        · by_cases hxk : x = k
          · exact Or.inl hxk
          · exact Or.inr (List.mem_filter.mpr ⟨ih.mpr hx, by simpa using hxk⟩)

theorem dictFind_eq_none {l : List (String × ℚ)} {k : String} :
    dictFind l k = none ↔ k ∉ l.map Prod.fst := by
  induction l with
  | nil => simp [dictFind]
  | cons kv t ih =>
      obtain ⟨k', v⟩ := kv
      by_cases h : k' = k
      · subst h
        simp [dictFind]
      · simp [dictFind, h, ih, Ne.symm h]

theorem dictFind_of_mem {l : List (String × ℚ)} {k : String} {v : ℚ}
    (hnd : (l.map Prod.fst).Nodup) (hm : (k, v) ∈ l) :
    dictFind l k = some v := by
  induction l with
  | nil => simp at hm
  | cons kv t ih =>
      obtain ⟨k', v'⟩ := kv
      simp only [List.map_cons, List.nodup_cons] at hnd
      rcases List.mem_cons.mp hm with heq | hm'
      · injection heq with h1 h2
        subst h1
        subst h2
        simp [dictFind]
      · have hk : k' ≠ k := by
          rintro rfl
          exact hnd.1 (List.mem_map.mpr ⟨(k', v), hm', rfl⟩)
        simp [dictFind, hk, ih hnd.2 hm']

theorem tokenGet_of_mem {l : List (String × ℚ)} {k : String} {v : ℚ}
    (hnd : (l.map Prod.fst).Nodup) (hm : (k, v) ∈ l) : tokenGet l k = v := by
  simp [tokenGet, dictFind_of_mem hnd hm]

theorem tokenGet_of_not_mem {l : List (String × ℚ)} {k : String}
    (h : k ∉ l.map Prod.fst) : tokenGet l k = 0 := by
  simp [tokenGet, dictFind_eq_none.mpr h]

/-- Filtering a `filterMap` whose every output fails the predicate
yields the empty list. -/
theorem filter_filterMap_nil {α : Type} (f : α → Option Event)
    (P : Event → Bool) (l : List α)
    (h : ∀ y ∈ l, ∀ e, f y = some e → P e = false) :
    (l.filterMap f).filter P = [] := by
  rw [List.filter_eq_nil_iff]
  intro e he
  obtain ⟨a, ha, hfa⟩ := List.mem_filterMap.mp he
  simp [h a ha e hfa]

/-- Filtering a `filterMap` in which only the single occurrence of `x`
can produce predicate-satisfying events. -/
theorem filter_filterMap_single {α : Type} [DecidableEq α]
    (f : α → Option Event) (P : Event → Bool) (x : α) (l : List α)
    (hcount : l.count x = 1)
    (h : ∀ y ∈ l, y ≠ x → ∀ e, f y = some e → P e = false) :
    (l.filterMap f).filter P = ((f x).toList).filter P := by
  induction l with
  | nil => simp at hcount
  | cons a t ih =>
      by_cases hax : a = x
      · subst hax
        rw [List.count_cons_self] at hcount
        have hx : a ∉ t := List.count_eq_zero.mp (by omega)
        have ht : (t.filterMap f).filter P = [] := by
          refine filter_filterMap_nil f P t fun y hy e hfy => ?_
          exact h y (.tail _ hy) (fun hyx => hx (hyx ▸ hy)) e hfy
        cases hfa : f a with
        | none => simp [List.filterMap_cons, hfa, ht]
        | some e => simp [List.filterMap_cons, hfa, List.filter_cons, ht]
      · have hcount' : t.count x = 1 := by
          rwa [List.count_cons_of_ne (fun hxa => hax hxa.symm)] at hcount
        have ha0 : ∀ e, f a = some e → P e = false :=
          h a (.head _) hax
        have ht := ih hcount'
          (fun y hy hyx e hfy => h y (.tail _ hy) hyx e hfy)
        cases hfa : f a with
        | none => simp [List.filterMap_cons, hfa, ht]
        | some e => simp [List.filterMap_cons, hfa, List.filter_cons, ha0 e hfa, ht]

/-- Walking the key list of an association list with unique keys and
looking each key back up visits exactly the entries. -/
theorem filterMap_keys_tokenGet (g : String → ℚ → Option Event) :
    ∀ l : List (String × ℚ), (l.map Prod.fst).Nodup →
      (l.map Prod.fst).filterMap (fun k => g k (tokenGet l k)) =
        l.filterMap (fun kv => g kv.1 kv.2) := by
  intro l
  induction l with
  | nil => simp
  | cons kv t ih =>
      intro hnd
      obtain ⟨k, v⟩ := kv
      simp only [List.map_cons, List.nodup_cons] at hnd
      have hhead : tokenGet ((k, v) :: t) k = v := by
        simp [tokenGet, dictFind]
      have htail : ∀ k' ∈ t.map Prod.fst,
          tokenGet ((k, v) :: t) k' = tokenGet t k' := by
        intro k' hk'
        have hne : k ≠ k' := fun h => hnd.1 (h ▸ hk')
        simp [tokenGet, dictFind, hne]
      rw [List.map_cons, List.filterMap_cons, List.filterMap_cons, hhead]
      have : (t.map Prod.fst).filterMap
            (fun k' => g k' (tokenGet ((k, v) :: t) k')) =
          (t.map Prod.fst).filterMap (fun k' => g k' (tokenGet t k')) :=
        List.filterMap_congr fun k' hk' => by rw [htail k' hk']
      rw [this, ih hnd.2]

/-! Shape lemmas: which constructors each diff stage can emit. -/

theorem newTokenEvent_eq_some {pt : List (String × ℚ)} {kv : String × ℚ}
    {e : Event} (h : newTokenEvent pt kv = some e) :
    e = .newToken kv.1 kv.2 ∧ hasKey pt kv.1 = false := by
  unfold newTokenEvent at h
  by_cases hk : hasKey pt kv.1 <;> simp [hk] at h
  exact ⟨h.symm, by simpa using hk⟩

theorem deltaEvent_eq_some {pt nt : List (String × ℚ)} {k : String}
    {e : Event} (h : deltaEvent pt nt k = some e) :
    e = .buy k (tokenGet pt k) (tokenGet nt k) ∨
      e = .sell k (tokenGet pt k) (tokenGet nt k) := by
  unfold deltaEvent at h
  split at h
  · exact absurd h (by simp)
  · split at h
    · exact Or.inl (Option.some.inj h).symm
    · split at h
      · exact Or.inr (Option.some.inj h).symm
      · exact absurd h (by simp)

theorem mem_balanceEvents {a b : ℚ} {e : Event}
    (h : e ∈ balanceEvents a b) : e = .balance a b := by
  unfold balanceEvents at h
  split at h <;> simp at h
  exact h

theorem openIncEvent_eq_some {pp : List Position} {p : Position} {e : Event}
    (h : openIncEvent pp p = some e) :
    (e = .openPos p.symbol p.side p.size_usd ∧
        prevMapGet pp (posKey p) = none) ∨
      (∃ old, prevMapGet pp (posKey p) = some old ∧
        old.size_usd * (105 / 100) < p.size_usd ∧
        e = .increase p.symbol p.side old.size_usd p.size_usd) := by
  unfold openIncEvent at h
  split at h
  case _ hm => exact Or.inl ⟨(Option.some.inj h).symm, hm⟩
  case _ old hm =>
    split at h
    case _ hlt => exact Or.inr ⟨old, hm, hlt, (Option.some.inj h).symm⟩
    case _ => exact absurd h (by simp)

theorem closeEvent_eq_some {np : List Position} {pp : Position} {e : Event}
    (h : closeEvent np pp = some e) :
    e = .closePos pp.symbol pp.side pp.size_usd ∧
      (np.any (fun p => p.symbol = pp.symbol && p.side = pp.side)) = false := by
  unfold closeEvent at h
  split at h
  · exact absurd h (by simp)
  case _ hany => exact ⟨(Option.some.inj h).symm, by simpa using hany⟩

/-! `prevMapGet` (the `prev_map` dict) lemmas. -/

theorem prevMapGet_eq_none {ps : List Position} {k : String × String} :
    prevMapGet ps k = none ↔ ∀ q ∈ ps, posKey q ≠ k := by
  induction ps with
  | nil => simp [prevMapGet]
  | cons p t ih =>
      rw [prevMapGet]
      constructor
      · intro h q hq
        cases ht : prevMapGet t k with
        | some r => rw [ht] at h; exact absurd h (by simp)
        | none =>
            rw [ht] at h
            rcases List.mem_cons.mp hq with rfl | hq'
            · intro hk
              rw [if_pos hk] at h
              exact absurd h (by simp)
            · exact ih.mp ht q hq'
      · intro h
        have ht : prevMapGet t k = none :=
          ih.mpr fun q hq => h q (List.mem_cons_of_mem _ hq)
        rw [ht, if_neg (h p (List.mem_cons_self _ _))]

theorem prevMapGet_of_mem {ps : List Position} {p : Position}
    (hnd : (ps.map posKey).Nodup) (hp : p ∈ ps) :
    prevMapGet ps (posKey p) = some p := by
  induction ps with
  | nil => simp at hp
  | cons q t ih =>
      simp only [List.map_cons, List.nodup_cons] at hnd
      rcases List.mem_cons.mp hp with rfl | hp'
      · have hnone : prevMapGet t (posKey p) = none :=
          prevMapGet_eq_none.mpr fun r hr hkey =>
            hnd.1 (hkey ▸ List.mem_map.mpr ⟨r, hr, rfl⟩)
        rw [prevMapGet, hnone, if_pos rfl]
      · rw [prevMapGet, ih hnd.2 hp']

theorem prevMapGet_mem {ps : List Position} {k : String × String}
    {q : Position} (h : prevMapGet ps k = some q) :
    q ∈ ps ∧ posKey q = k := by
  induction ps with
  | nil => simp [prevMapGet] at h
  | cons p t ih =>
      rw [prevMapGet] at h
      cases ht : prevMapGet t k with
      | some r =>
          rw [ht] at h
          obtain rfl : r = q := Option.some.inj h
          obtain ⟨hmem, hkey⟩ := ih ht
          exact ⟨List.mem_cons_of_mem _ hmem, hkey⟩
      | none =>
          rw [ht] at h
          by_cases hk : posKey p = k
          · rw [if_pos hk] at h
            obtain rfl : p = q := Option.some.inj h
            exact ⟨List.mem_cons_self _ _, hk⟩
          · rw [if_neg hk] at h
            exact absurd h (by simp)

/-- `(k, v) ∈ l` (any occurrence) makes `dictFind` succeed. -/
theorem dictFind_isSome_of_mem {l : List (String × ℚ)} {k : String} {v : ℚ}
    (hm : (k, v) ∈ l) : (dictFind l k).isSome = true := by
  induction l with
  | nil => simp at hm
  | cons kv t ih =>
      obtain ⟨k', v'⟩ := kv
      by_cases h : k' = k
      · simp [dictFind, h]
      · rcases List.mem_cons.mp hm with heq | hm'
        · injection heq with h1 h2
          exact absurd h1.symm h
        · simp [dictFind, h, ih hm']

/-! Per-stage filter-elimination lemmas: a predicate that rejects every
constructor a stage can emit filters that stage to nothing. -/

theorem filter_newTokenEvents_nil (pt nt : List (String × ℚ))
    (P : Event → Bool) (hnew : ∀ s v, P (.newToken s v) = false) :
    (newTokenEvents pt nt).filter P = [] :=
  filter_filterMap_nil _ _ _ fun y _ e hfy => by
    obtain ⟨rfl, -⟩ := newTokenEvent_eq_some hfy
    exact hnew y.1 y.2

theorem filter_tokenDeltaEvents_nil (pt nt : List (String × ℚ))
    (P : Event → Bool) (hbuy : ∀ s a b, P (.buy s a b) = false)
    (hsell : ∀ s a b, P (.sell s a b) = false) :
    (tokenDeltaEvents pt nt).filter P = [] :=
  filter_filterMap_nil _ _ _ fun y _ e hfy => by
    rcases deltaEvent_eq_some hfy with rfl | rfl
    · exact hbuy y _ _
    · exact hsell y _ _

theorem filter_balanceEvents_nil (a b : ℚ) (P : Event → Bool)
    (hbal : ∀ x y, P (.balance x y) = false) :
    (balanceEvents a b).filter P = [] := by
  rw [List.filter_eq_nil_iff]
  intro e he
  rw [mem_balanceEvents he]
  simp [hbal]

theorem filter_openIncreaseEvents_nil (pp np : List Position)
    (P : Event → Bool) (hopen : ∀ s sd v, P (.openPos s sd v) = false)
    (hinc : ∀ s sd a b, P (.increase s sd a b) = false) :
    (openIncreaseEvents pp np).filter P = [] :=
  filter_filterMap_nil _ _ _ fun y _ e hfy => by
    rcases openIncEvent_eq_some hfy with ⟨rfl, -⟩ | ⟨old, -, -, rfl⟩
    · exact hopen y.symbol y.side y.size_usd
    · exact hinc y.symbol y.side old.size_usd y.size_usd

theorem filter_closeEvents_nil (pp np : List Position) (P : Event → Bool)
    (hclose : ∀ s sd v, P (.closePos s sd v) = false) :
    (closeEvents pp np).filter P = [] :=
  filter_filterMap_nil _ _ _ fun y _ e hfy => by
    obtain ⟨rfl, -⟩ := closeEvent_eq_some hfy
    exact hclose y.symbol y.side y.size_usd

/-- Filtering the full diff output with a predicate distributes over the
five stages. -/
theorem filter_compare (prev : WalletState) (snap : Snapshot)
    (P : Event → Bool) :
    (compare_and_generate_events prev snap).filter P =
      (newTokenEvents prev.tokens (snap.tokens.getD [])).filter P
        ++ (tokenDeltaEvents prev.tokens (snap.tokens.getD [])).filter P
        ++ (balanceEvents prev.usd_total (snap.usd_total.getD 0)).filter P
        ++ (openIncreaseEvents prev.positions (snap.positions.getD [])).filter P
        ++ (closeEvents prev.positions (snap.positions.getD [])).filter P := by
  unfold compare_and_generate_events
  simp [List.filter_append]

theorem unionKeys_nodup (pt nt : List (String × ℚ)) :
    (unionKeys pt nt).Nodup := dedupKeys_nodup _

theorem mem_unionKeys {pt nt : List (String × ℚ)} {tok : String} :
    tok ∈ unionKeys pt nt ↔
      tok ∈ pt.map Prod.fst ∨ tok ∈ nt.map Prod.fst := by
  unfold unionKeys
  rw [mem_dedupKeys, List.mem_append]

/-- C5: For every symbol of the union of previous and current token
keys (absent key ↦ 0): a delta of absolute value below the noise
threshold 1 produces no BUY/SELL event for that symbol; otherwise
exactly one event is emitted — BUY when the value grew, SELL when it
shrank — carrying the previous and new magnitudes. -/
theorem token_delta_classification (prev : WalletState) (snap : Snapshot)
    (tok : String) :
    (compare_and_generate_events prev snap).filter (Event.isBuySellFor tok) =
      (if ratAbs (tokenGet (snap.tokens.getD []) tok
            - tokenGet prev.tokens tok) < 1 then []
       else if tokenGet prev.tokens tok
            < tokenGet (snap.tokens.getD []) tok then
         [.buy tok (tokenGet prev.tokens tok)
            (tokenGet (snap.tokens.getD []) tok)]
       else
         [.sell tok (tokenGet prev.tokens tok)
            (tokenGet (snap.tokens.getD []) tok)]) := by
  rw [filter_compare]
  rw [filter_newTokenEvents_nil _ _ _ (fun s v => by simp [Event.isBuySellFor])]
  rw [filter_balanceEvents_nil _ _ _ (fun x y => by simp [Event.isBuySellFor])]
  rw [filter_openIncreaseEvents_nil _ _ _
    (fun s sd v => by simp [Event.isBuySellFor])
    (fun s sd a b => by simp [Event.isBuySellFor])]
  rw [filter_closeEvents_nil _ _ _ (fun s sd v => by simp [Event.isBuySellFor])]
  simp only [List.nil_append, List.append_nil]
  by_cases hmem : tok ∈ unionKeys prev.tokens (snap.tokens.getD [])
  · have hcount := List.count_eq_one_of_mem (unionKeys_nodup _ _) hmem
    unfold tokenDeltaEvents
    rw [filter_filterMap_single _ _ tok _ hcount ?hother]
    case hother =>
      intro y hy hyne e hfy
      rcases deltaEvent_eq_some hfy with rfl | rfl <;>
        simp [Event.isBuySellFor, hyne]
    unfold deltaEvent
    split_ifs with h1 h2 h3
    · simp
    · simp [Event.isBuySellFor]
    · simp [Event.isBuySellFor]
    · have hne : tokenGet (snap.tokens.getD []) tok
          ≠ tokenGet prev.tokens tok := by
        intro heq
        rw [heq, sub_self] at h1
        exact h1 (by norm_num [ratAbs])
      exact absurd (lt_of_le_of_ne (not_lt.mp h2) hne) h3
  · have hpt : tok ∉ prev.tokens.map Prod.fst := fun h =>
      hmem (mem_unionKeys.mpr (Or.inl h))
    have hnt : tok ∉ (snap.tokens.getD []).map Prod.fst := fun h =>
      hmem (mem_unionKeys.mpr (Or.inr h))
    rw [tokenGet_of_not_mem hpt, tokenGet_of_not_mem hnt]
    rw [if_pos (by norm_num [ratAbs])]
    unfold tokenDeltaEvents
    refine filter_filterMap_nil _ _ _ fun y hy e hfy => ?_
    have hyne : y ≠ tok := fun h => hmem (h ▸ hy)
    rcases deltaEvent_eq_some hfy with rfl | rfl <;>
      simp [Event.isBuySellFor, hyne]

/-- `firstSome` returns the element at the first non-`none` index. -/
theorem firstSome_eq_of_first :
    ∀ {l : List (Option Snapshot)} {i : ℕ} {s : Snapshot},
      l.getD i none = some s → (∀ j, j < i → l.getD j none = none) →
      firstSome l = some s := by
  intro l
  induction l with
  | nil => intro i s hs _; simp at hs
  | cons a t ih =>
      intro i s hs hfirst
      cases i with
      | zero =>
          simp only [List.getD_cons_zero] at hs
          rw [hs]
          rfl
      | succ i =>
          have ha : a = none := by
            have := hfirst 0 (Nat.succ_pos i)
            simpa using this
          subst ha
          simp only [List.getD_cons_succ] at hs
          exact ih hs fun j hj => by
            have := hfirst (j + 1) (Nat.succ_lt_succ hj)
            simpa using this

/-- C8: the resolver invokes its providers in the fixed priority order
coinglass, debank, dexscreener, hyperdash, and returns the first
non-absent snapshot verbatim, regardless of what later providers would
return. -/
theorem resolver_priority_first_wins (minPos : ℚ) (addr : String)
    (w : ProviderResponses) (i : ℕ) (s : Snapshot)
    (hs : (providerResults minPos addr w).getD i none = some s)
    (hfirst : ∀ j, j < i → (providerResults minPos addr w).getD j none = none) :
    detect_and_build_snapshots minPos addr w = some s :=
  firstSome_eq_of_first hs hfirst

/-- Witness for C8: debank (priority 1) wins over dexscreener
(priority 2), which would itself have returned a different non-absent
snapshot; the resolver output is debank's snapshot verbatim. -/
theorem resolver_priority_first_wins_witness :
    detect_and_build_snapshots 10 "0xw8"
        { hasApiKey := false, coinglass := none,
          debank := some { totalUsdValue := 7, assets := [] },
          dexscreener := some [{ base := some "ABC", liquidityUsd := 5 }],
          hyperdash := none } =
      some { address := "0xw8", usd_total := some 7, tokens := some [],
             positions := some [], source := "debank" } :=
  resolver_priority_first_wins 10 "0xw8" _ 1 _ rfl
    (fun j hj => by
      have hj0 : j = 0 := by omega
      subst hj0
      rfl)

/-- C9: when every provider yields absent, the poll cycle leaves the
stored state (in memory and on disk) untouched and sends nothing. -/
theorem all_providers_absent_no_effect (minPos : ℚ) (w : ProviderResponses)
    (writeOk : Bool) (now addr : String) (bs : BotState)
    (h : detect_and_build_snapshots minPos addr w = none) :
    process_wallet_sync minPos w writeOk now addr bs = bs := by
  unfold process_wallet_sync
  rw [h]

/-- Witness for C9: a cycle in which all four providers fail leaves a
concrete non-trivial bot state exactly as it was. -/
theorem all_providers_absent_no_effect_witness :
    process_wallet_sync 10
        { hasApiKey := true, coinglass := none, debank := none,
          dexscreener := none, hyperdash := none } true "t1" "0xw9"
        { mem := [("0xw9", { updated_at := some "t0", usd_total := 3,
                             tokens := [("BTC", 3)], positions := [] })],
          disk := [], sent := [] } =
      { mem := [("0xw9", { updated_at := some "t0", usd_total := 3,
                           tokens := [("BTC", 3)], positions := [] })],
        disk := [], sent := [] } :=
  all_providers_absent_no_effect 10 _ true "t1" "0xw9" _ rfl

/-- A snapshot produced by the coinglass fetcher carries all three
fields. -/
theorem fetch_from_coinglass_fields {hasApiKey : Bool} {minPos : ℚ}
    {addr : String} {resp : Option CoinglassResp} {s : Snapshot}
    (h : fetch_from_coinglass hasApiKey minPos addr resp = some s) :
    s.tokens ≠ none ∧ s.positions ≠ none ∧ s.usd_total ≠ none := by
  unfold fetch_from_coinglass at h
  split at h
  · exact absurd h (by simp)
  · match resp, h with
    | some r, h =>
        simp only [Option.some.injEq] at h
        subst h
        simp

/-- A snapshot produced by the debank fetcher carries all three
fields. -/
theorem fetch_from_debank_fields {addr : String} {resp : Option DebankData}
    {s : Snapshot} (h : fetch_from_debank addr resp = some s) :
    s.tokens ≠ none ∧ s.positions ≠ none ∧ s.usd_total ≠ none := by
  match resp, h with
  | some d, h =>
      unfold fetch_from_debank at h
      simp only [Option.some.injEq] at h
      subst h
      simp

/-- A snapshot produced by the dexscreener fetcher has tokens but omits
the `positions` and `usd_total` keys entirely. -/
theorem fetch_from_dexscreener_fields {addr : String}
    {resp : Option (List DexPair)} {s : Snapshot}
    (h : fetch_from_dexscreener_addr addr resp = some s) :
    s.tokens ≠ none ∧ s.positions = none ∧ s.usd_total = none := by
  cases resp with
  | none => simp [fetch_from_dexscreener_addr] at h
  | some pairs =>
      simp only [fetch_from_dexscreener_addr] at h
      split at h
      · exact absurd h (by simp)
      · simp only [Option.some.injEq] at h
        subst h
        simp

/-- A snapshot produced by the hyperdash fetcher has positions but
omits the `tokens` and `usd_total` keys entirely. -/
theorem fetch_from_hyperdash_fields {minPos : ℚ} {addr : String}
    {resp : Option (List HyperdashItem)} {s : Snapshot}
    (h : fetch_from_hyperdash minPos addr resp = some s) :
    s.positions ≠ none ∧ s.tokens = none ∧ s.usd_total = none := by
  cases resp with
  | none => simp [fetch_from_hyperdash] at h
  | some arr =>
      simp only [fetch_from_hyperdash] at h
      split at h
      · exact absurd h (by simp)
      · simp only [Option.some.injEq] at h
        subst h
        simp

/-- Whatever `firstSome` returns is one of the list's elements. -/
theorem firstSome_mem : ∀ {l : List (Option Snapshot)} {s : Snapshot},
    firstSome l = some s → some s ∈ l := by
  intro l
  induction l with
  | nil => intro s h; simp [firstSome] at h
  | cons a t ih =>
      intro s h
      cases a with
      | some r =>
          have : r = s := by
            have hh : firstSome (some r :: t) = some r := rfl
            rw [hh] at h
            exact Option.some.inj h
          exact this ▸ List.mem_cons_self _ _
      | none =>
          have hh : firstSome (none :: t) = firstSome t := rfl
          rw [hh] at h
          exact List.mem_cons_of_mem _ (ih h)

/-- C2 counterexample: with only dexscreener responding, the resolver
returns a snapshot whose `positions` and `usd_total` are absent —
refuting the claim that every resolver snapshot has a non-absent
positions sequence and a (defaulted) usdTotal. -/
theorem resolver_dexscreener_lacks_positions :
    detect_and_build_snapshots 10 "0xc2"
        { hasApiKey := true, coinglass := none, debank := none,
          dexscreener := some [{ base := some "ABC", liquidityUsd := 5 }],
          hyperdash := none } =
      some { address := "0xc2", usd_total := none,
             tokens := some [("ABC", 5)], positions := none,
             source := "dexscreener" } ∧
    (({ address := "0xc2", usd_total := none,
           tokens := some [("ABC", 5)], positions := none,
           source := "dexscreener" } : Snapshot).positions = none ∧
      ({ address := "0xc2", usd_total := none,
           tokens := some [("ABC", 5)], positions := none,
           source := "dexscreener" } : Snapshot).usd_total = none) :=
  ⟨rfl, rfl, rfl⟩

/-- C2 amended: the resolver performs no normalization — it returns the
winning provider's snapshot verbatim, and dexscreener/hyperdash
snapshots omit `positions`/`usd_total` resp. `tokens`/`usd_total`.
What does hold: every returned snapshot has at least one of `tokens`
and `positions` present (debank and coinglass supply all fields);
absent fields are only defaulted downstream, by the diff engine and
the state writer. -/
theorem resolver_snapshot_tokens_or_positions (minPos : ℚ) (addr : String)
    (w : ProviderResponses) (s : Snapshot)
    (h : detect_and_build_snapshots minPos addr w = some s) :
    s.tokens ≠ none ∨ s.positions ≠ none := by
  have hm : some s ∈ providerResults minPos addr w := firstSome_mem h
  unfold providerResults at hm
  rcases List.mem_cons.mp hm with h1 | hm
  · exact Or.inl (fetch_from_coinglass_fields h1.symm).1
  rcases List.mem_cons.mp hm with h2 | hm
  · exact Or.inl (fetch_from_debank_fields h2.symm).1
  rcases List.mem_cons.mp hm with h3 | hm
  · exact Or.inl (fetch_from_dexscreener_fields h3.symm).1
  rcases List.mem_cons.mp hm with h4 | hm
  · exact Or.inr (fetch_from_hyperdash_fields h4.symm).1
  · simp at hm

/-- Witness for the amended C2: the hyperdash-only world yields a
snapshot with positions present (tokens absent). -/
theorem resolver_snapshot_tokens_or_positions_witness :
    ({ address := "0xc2w", usd_total := none, tokens := none,
       positions := some [{ symbol := "ETH", side := "long",
                            size_usd := 50 }],
       source := "hyperdash" } : Snapshot).tokens ≠ none ∨
    ({ address := "0xc2w", usd_total := none, tokens := none,
       positions := some [{ symbol := "ETH", side := "long",
                            size_usd := 50 }],
       source := "hyperdash" } : Snapshot).positions ≠ none :=
  resolver_snapshot_tokens_or_positions 10 "0xc2w"
    { hasApiKey := false, coinglass := none, debank := none,
      dexscreener := none,
      hyperdash := some [{ symbol := "ETH", notional := 50,
                           isLong := true }] }
    _ (by decide)

/-- C3 counterexample: a cycle in which the state write fails
(`writeOk = false`) still emits the diff's events — refuting the claim
that a persistence I/O failure abandons the cycle without emitting.
The `sent` list gains the balance event while `disk` keeps its stale
(empty) contents. -/
theorem persist_failure_still_emits :
    process_wallet_sync 10
        { hasApiKey := false, coinglass := none,
          debank := some { totalUsdValue := 7, assets := [] },
          dexscreener := none, hyperdash := none }
        false "t0" "a" { mem := [], disk := [], sent := [] } =
      { mem := [("a", { updated_at := some "t0", usd_total := 7,
                        tokens := [], positions := [] })],
        disk := [], sent := [.balance 0 7] } := by
  simp only [process_wallet_sync, detect_and_build_snapshots,
    providerResults, fetch_from_coinglass, fetch_from_debank,
    fetch_from_dexscreener_addr, fetch_from_hyperdash, firstSome,
    compare_and_generate_events, newTokenEvents, newTokenEvent,
    tokenDeltaEvents, deltaEvent, balanceEvents, openIncreaseEvents,
    openIncEvent, closeEvents, closeEvent, unionKeys, dedupKeys,
    get_wallet_state, defaultWalletState, dictSet, ratAbs]
  norm_num
  decide

/-- C3 amended: a persistence I/O failure is caught and logged inside
the write helper (`_write_json` swallows every exception); the cycle is
not abandoned — the in-memory state is still replaced and every event
derived from the diff is still emitted; only the on-disk copy stays
stale. -/
theorem persist_failure_cycle_continues (minPos : ℚ) (w : ProviderResponses)
    (now addr : String) (bs : BotState) (snap : Snapshot)
    (h : detect_and_build_snapshots minPos addr w = some snap) :
    (process_wallet_sync minPos w false now addr bs).sent =
        bs.sent ++ compare_and_generate_events
          (get_wallet_state bs.mem addr) snap ∧
    (process_wallet_sync minPos w false now addr bs).disk = bs.disk ∧
    (process_wallet_sync minPos w false now addr bs).mem =
        dictSet bs.mem (strLower addr)
          { updated_at := some now, usd_total := snap.usd_total.getD 0,
            tokens := snap.tokens.getD [],
            positions := snap.positions.getD [] } := by
  unfold process_wallet_sync
  rw [h]
  exact ⟨rfl, rfl, rfl⟩

/-- Witness for the amended C3: a concrete failed-write cycle whose
emitted events and unchanged disk are produced by the theorem. -/
theorem persist_failure_cycle_continues_witness :
    (process_wallet_sync 10
        { hasApiKey := false, coinglass := none,
          debank := some { totalUsdValue := 7, assets := [] },
          dexscreener := none, hyperdash := none }
        false "t0" "a" { mem := [], disk := [], sent := [] }).sent =
      [] ++ compare_and_generate_events
        (get_wallet_state [] "a")
        { address := "a", usd_total := some 7, tokens := some [],
          positions := some [], source := "debank" } ∧
    (process_wallet_sync 10
        { hasApiKey := false, coinglass := none,
          debank := some { totalUsdValue := 7, assets := [] },
          dexscreener := none, hyperdash := none }
        false "t0" "a" { mem := [], disk := [], sent := [] }).disk = [] ∧
    (process_wallet_sync 10
        { hasApiKey := false, coinglass := none,
          debank := some { totalUsdValue := 7, assets := [] },
          dexscreener := none, hyperdash := none }
        false "t0" "a" { mem := [], disk := [], sent := [] }).mem =
      dictSet [] (strLower "a")
        { updated_at := some "t0", usd_total := 7, tokens := [],
          positions := [] } :=
  persist_failure_cycle_continues 10 _ "t0" "a" _ _ rfl

/-- The state written for an address is read back by
`get_wallet_state` for that same address. -/
theorem get_wallet_state_dictSet (st : List (String × WalletState))
    (addr : String) (v : WalletState) :
    get_wallet_state (dictSet st (strLower addr) v) addr = v := by
  induction st with
  | nil => simp [dictSet, get_wallet_state]
  | cons kv t ih =>
      obtain ⟨k, v'⟩ := kv
      by_cases hk : k = strLower addr
      · simp [dictSet, hk, get_wallet_state]
      · simp [dictSet, hk, get_wallet_state, ih]

/-- C10: every WalletState written by a successful cycle has exactly
the fields `updated_at`, `usd_total` (defaulted to 0), `tokens`
(defaulted to the empty mapping) and `positions` (defaulted to the
empty sequence); in particular a snapshot that omits `tokens` entirely
replaces any previously stored token mapping with the empty mapping. -/
theorem written_state_shape (minPos : ℚ) (w : ProviderResponses)
    (writeOk : Bool) (now addr : String) (bs : BotState) (snap : Snapshot)
    (h : detect_and_build_snapshots minPos addr w = some snap) :
    get_wallet_state (process_wallet_sync minPos w writeOk now addr bs).mem
        addr =
      { updated_at := some now, usd_total := snap.usd_total.getD 0,
        tokens := snap.tokens.getD [],
        positions := snap.positions.getD [] } ∧
    (snap.tokens = none →
      (get_wallet_state
          (process_wallet_sync minPos w writeOk now addr bs).mem
          addr).tokens = []) := by
  have hmain : get_wallet_state
      (process_wallet_sync minPos w writeOk now addr bs).mem addr =
      { updated_at := some now, usd_total := snap.usd_total.getD 0,
        tokens := snap.tokens.getD [],
        positions := snap.positions.getD [] } := by
    unfold process_wallet_sync
    rw [h]
    exact get_wallet_state_dictSet _ _ _
  refine ⟨hmain, fun h0 => ?_⟩
  rw [hmain, h0]
  rfl

/-- Witness for C10: a hyperdash snapshot (no `tokens` key) overwrites
a stored state that previously had tokens; the freshly read state has
the empty token mapping, the defaulted 0 total, and the new
positions. -/
theorem written_state_shape_witness :
    get_wallet_state
        (process_wallet_sync 10
          { hasApiKey := false, coinglass := none, debank := none,
            dexscreener := none,
            hyperdash := some [{ symbol := "ETH", notional := 50,
                                 isLong := true }] }
          true "t1" "a"
          { mem := [("a", { updated_at := some "t0", usd_total := 5,
                            tokens := [("BTC", 3)], positions := [] })],
            disk := [], sent := [] }).mem "a" =
      { updated_at := some "t1", usd_total := 0, tokens := [],
        positions := [{ symbol := "ETH", side := "long",
                        size_usd := 50 }] } :=
  (written_state_shape 10 _ true "t1" "a" _
    { address := "a", usd_total := none, tokens := none,
      positions := some [{ symbol := "ETH", side := "long",
                           size_usd := 50 }],
      source := "hyperdash" }
    (by decide)).1

/-- C4 counterexample: a stored state whose positions list contains two
entries with the same (symbol, side) key is not a fixed point of the
diff: diffing it against an identical snapshot emits a spurious
INCREASE, because the `prev_map` dict comprehension keeps only the last
duplicate (size 100) while both list entries are compared against it
(300 > 100·1.05). -/
theorem diff_identical_duplicate_keys_emits :
    compare_and_generate_events
        { updated_at := none, usd_total := 0, tokens := [],
          positions := [{ symbol := "AAA", side := "long", size_usd := 300 },
                        { symbol := "AAA", side := "long",
                          size_usd := 100 }] }
        { address := "a", usd_total := some 0, tokens := some [],
          positions :=
            some [{ symbol := "AAA", side := "long", size_usd := 300 },
                  { symbol := "AAA", side := "long", size_usd := 100 }],
          source := "s" } =
      [.increase "AAA" "long" 100 300] := by
  simp [compare_and_generate_events, newTokenEvents, newTokenEvent,
    tokenDeltaEvents, deltaEvent, balanceEvents, openIncreaseEvents,
    openIncEvent, closeEvents, closeEvent, unionKeys, dedupKeys,
    prevMapGet, posKey, hasKey, dictFind, ratAbs, List.filterMap_cons]
  norm_num

/-- C4 amended: for every stored WalletState whose positions have
pairwise-distinct (symbol, side) keys and non-negative sizes — both
invariants of the data model, though not enforced by the code — diffing
against an identical snapshot yields no events. -/
theorem diff_no_change_no_events (prev : WalletState) (addr src : String)
    (hnd : (prev.positions.map posKey).Nodup)
    (hpos : ∀ p ∈ prev.positions, 0 ≤ p.size_usd) :
    compare_and_generate_events prev
      { address := addr, usd_total := some prev.usd_total,
        tokens := some prev.tokens, positions := some prev.positions,
        source := src } = [] := by
  have h1 : newTokenEvents prev.tokens prev.tokens = [] := by
    refine List.filterMap_eq_nil_iff.mpr fun kv hkv => ?_
    unfold newTokenEvent
    have hk : hasKey prev.tokens kv.1 = true := by
      unfold hasKey
      exact dictFind_isSome_of_mem ((Prod.mk.eta (p := kv)).symm ▸ hkv)
    simp [hk]
  have h2 : tokenDeltaEvents prev.tokens prev.tokens = [] := by
    refine List.filterMap_eq_nil_iff.mpr fun k _ => ?_
    unfold deltaEvent
    rw [sub_self]
    norm_num [ratAbs]
  have h3 : balanceEvents prev.usd_total prev.usd_total = [] := by
    unfold balanceEvents
    rw [sub_self]
    norm_num [ratAbs]
  have h4 : openIncreaseEvents prev.positions prev.positions = [] := by
    refine List.filterMap_eq_nil_iff.mpr fun p hp => ?_
    unfold openIncEvent
    rw [prevMapGet_of_mem hnd hp]
    have hle : p.size_usd ≤ p.size_usd * (105 / 100) :=
      le_mul_of_one_le_right (hpos p hp) (by norm_num)
    simp [not_lt.mpr hle]
  have h5 : closeEvents prev.positions prev.positions = [] := by
    refine List.filterMap_eq_nil_iff.mpr fun pp hpp => ?_
    unfold closeEvent
    have hany : prev.positions.any
        (fun p => p.symbol = pp.symbol && p.side = pp.side) = true :=
      List.any_eq_true.mpr ⟨pp, hpp, by simp⟩
    simp [hany]
  unfold compare_and_generate_events
  simp only [Option.getD_some]
  rw [h1, h2, h3, h4, h5]
  rfl

/-- Witness for the amended C4: a concrete well-formed state diffed
against an identical snapshot produces no events. -/
theorem diff_no_change_no_events_witness :
    compare_and_generate_events
        { updated_at := none, usd_total := 600, tokens := [("BTC", 100)],
          positions := [{ symbol := "AAA", side := "long",
                          size_usd := 500 }] }
        { address := "w",
          usd_total := some (WalletState.usd_total
            { updated_at := none, usd_total := 600,
              tokens := [("BTC", 100)],
              positions := [{ symbol := "AAA", side := "long",
                              size_usd := 500 }] }),
          tokens := some [("BTC", 100)],
          positions := some [{ symbol := "AAA", side := "long",
                               size_usd := 500 }],
          source := "s" } = [] :=
  diff_no_change_no_events
    { updated_at := none, usd_total := 600, tokens := [("BTC", 100)],
      positions := [{ symbol := "AAA", side := "long", size_usd := 500 }] }
    "w" "s" (by decide) (by decide)

/-- C6: for a position present (by (symbol, side) key) in both the
previous state and the current snapshot, the diff's position events for
that key are exactly one INCREASE when `current.sizeUsd >
previous.sizeUsd * 1.05`, and nothing otherwise; in particular an
unchanged or decreased size produces no event for that position. -/
theorem position_increase_iff_growth (prev : WalletState) (snap : Snapshot)
    (p old : Position)
    (hmem : p ∈ snap.positions.getD [])
    (hnd : ((snap.positions.getD []).map posKey).Nodup)
    (hprev : prevMapGet prev.positions (posKey p) = some old)
    (hold : 0 ≤ old.size_usd) :
    ((compare_and_generate_events prev snap).filter
        (Event.isPosEventFor (posKey p)) =
      if old.size_usd * (105 / 100) < p.size_usd then
        [.increase p.symbol p.side old.size_usd p.size_usd]
      else []) ∧
    (p.size_usd ≤ old.size_usd →
      (compare_and_generate_events prev snap).filter
        (Event.isPosEventFor (posKey p)) = []) := by
  have hmain : (compare_and_generate_events prev snap).filter
      (Event.isPosEventFor (posKey p)) =
      if old.size_usd * (105 / 100) < p.size_usd then
        [.increase p.symbol p.side old.size_usd p.size_usd]
      else [] := by
    rw [filter_compare]
    rw [filter_newTokenEvents_nil _ _ _
      (fun s v => by simp [Event.isPosEventFor])]
    rw [filter_tokenDeltaEvents_nil _ _ _
      (fun s a b => by simp [Event.isPosEventFor])
      (fun s a b => by simp [Event.isPosEventFor])]
    rw [filter_balanceEvents_nil _ _ _
      (fun x y => by simp [Event.isPosEventFor])]
    have hclose : (closeEvents prev.positions
        (snap.positions.getD [])).filter
        (Event.isPosEventFor (posKey p)) = [] := by
      refine filter_filterMap_nil _ _ _ fun y _ e hfy => ?_
      obtain ⟨rfl, hany⟩ := closeEvent_eq_some hfy
      by_cases hkey : (y.symbol, y.side) = posKey p
      · exfalso
        have hp1 : p.symbol = y.symbol ∧ p.side = y.side := by
          have := hkey
          simp only [posKey, Prod.mk.injEq] at this
          exact ⟨this.1.symm, this.2.symm⟩
        have : (snap.positions.getD []).any
            (fun q => q.symbol = y.symbol && q.side = y.side) = true :=
          List.any_eq_true.mpr ⟨p, hmem, by simp [hp1.1, hp1.2]⟩
        rw [this] at hany
        exact absurd hany (by simp)
      · simp [Event.isPosEventFor, hkey]
    rw [hclose]
    simp only [List.nil_append, List.append_nil]
    have hcnt : (snap.positions.getD []).count p = 1 :=
      List.count_eq_one_of_mem (hnd.of_map) hmem
    unfold openIncreaseEvents
    rw [filter_filterMap_single _ _ p _ hcnt ?hother]
    case hother =>
      intro y hy hyne e hfy
      have hkey : posKey y ≠ posKey p := fun hk =>
        hyne (List.inj_on_of_nodup_map hnd hy hmem hk)
      rcases openIncEvent_eq_some hfy with ⟨rfl, -⟩ | ⟨o, -, -, rfl⟩
      · simpa [Event.isPosEventFor, posKey] using hkey
      · simpa [Event.isPosEventFor, posKey] using hkey
    unfold openIncEvent
    rw [hprev]
    dsimp only
    by_cases hlt : old.size_usd * (105 / 100) < p.size_usd
    · rw [if_pos hlt, if_pos hlt]
      simp [Event.isPosEventFor, posKey]
    · rw [if_neg hlt, if_neg hlt]
      rfl
  refine ⟨hmain, fun hdec => ?_⟩
  have hle : p.size_usd ≤ old.size_usd * (105 / 100) :=
    le_trans hdec (le_mul_of_one_le_right hold (by norm_num))
  rw [hmain, if_neg (not_lt.mpr hle)]

/-- Witness for C6: the spec's scenario — previous position
(AAA, long, 500), current (AAA, long, 530), a 6% growth — yields
exactly the INCREASE event (and the growth test is true). -/
theorem position_increase_iff_growth_witness :
    (compare_and_generate_events
        { updated_at := none, usd_total := 0, tokens := [],
          positions := [{ symbol := "AAA", side := "long",
                          size_usd := 500 }] }
        { address := "w", usd_total := some 0, tokens := some [],
          positions := some [{ symbol := "AAA", side := "long",
                               size_usd := 530 }],
          source := "s" }).filter
      (Event.isPosEventFor
        (posKey { symbol := "AAA", side := "long", size_usd := 530 })) =
      (if (500 : ℚ) * (105 / 100) < 530 then
        [.increase "AAA" "long" 500 530]
      else []) :=
  (position_increase_iff_growth _ _
    { symbol := "AAA", side := "long", size_usd := 530 }
    { symbol := "AAA", side := "long", size_usd := 500 }
    (by decide) (by decide) (by decide) (by decide)).1

/-- C7: (a) for every previous position (with unique keys) whose
(symbol, side) key is absent from the current positions, the diff emits
exactly one CLOSE event for that key, carrying its last known
magnitude; (b) a side flip (long→short of the same symbol) is handled
as two independent keys: one OPEN for the new side followed by one
CLOSE for the old side in the same cycle — never a single flip
event. -/
theorem close_exact_and_side_flip :
    (∀ (prev : WalletState) (snap : Snapshot) (pp : Position),
      pp ∈ prev.positions →
      (prev.positions.map posKey).Nodup →
      (∀ p ∈ snap.positions.getD [], posKey p ≠ posKey pp) →
      (compare_and_generate_events prev snap).filter
          (Event.isCloseFor (posKey pp)) =
        [.closePos pp.symbol pp.side pp.size_usd]) ∧
    (∀ (upd : Option String) (u : ℚ) (toks : List (String × ℚ))
        (sym addr src : String) (ut : Option ℚ)
        (nt : Option (List (String × ℚ))) (s t : ℚ),
      (compare_and_generate_events
          { updated_at := upd, usd_total := u, tokens := toks,
            positions := [{ symbol := sym, side := "long",
                            size_usd := s }] }
          { address := addr, usd_total := ut, tokens := nt,
            positions := some [{ symbol := sym, side := "short",
                                 size_usd := t }],
            source := src }).filter
          (fun e => Event.isPosEventFor (sym, "long") e
            || Event.isPosEventFor (sym, "short") e) =
        [.openPos sym "short" t, .closePos sym "long" s]) := by
  constructor
  · intro prev snap pp hmem hnd habs
    rw [filter_compare]
    rw [filter_newTokenEvents_nil _ _ _
      (fun s v => by simp [Event.isCloseFor])]
    rw [filter_tokenDeltaEvents_nil _ _ _
      (fun s a b => by simp [Event.isCloseFor])
      (fun s a b => by simp [Event.isCloseFor])]
    rw [filter_balanceEvents_nil _ _ _
      (fun x y => by simp [Event.isCloseFor])]
    rw [filter_openIncreaseEvents_nil _ _ _
      (fun s sd v => by simp [Event.isCloseFor])
      (fun s sd a b => by simp [Event.isCloseFor])]
    simp only [List.nil_append]
    have hcnt : prev.positions.count pp = 1 :=
      List.count_eq_one_of_mem (hnd.of_map) hmem
    unfold closeEvents
    rw [filter_filterMap_single _ _ pp _ hcnt ?hother]
    case hother =>
      intro y hy hyne e hfy
      have hkey : posKey y ≠ posKey pp := fun hk =>
        hyne (List.inj_on_of_nodup_map hnd hy hmem hk)
      obtain ⟨rfl, -⟩ := closeEvent_eq_some hfy
      simpa [Event.isCloseFor, posKey] using hkey
    unfold closeEvent
    have hany : (snap.positions.getD []).any
        (fun p => p.symbol = pp.symbol && p.side = pp.side) = false := by
      rw [List.any_eq_false]
      intro q hq
      have hne := habs q hq
      simp only [Bool.and_eq_true, decide_eq_true_eq, not_and]
      intro h1 h2
      exact hne (by simp [posKey, h1, h2])
    rw [hany]
    simp [Event.isCloseFor, posKey]
  · intro upd u toks sym addr src ut nt s t
    rw [filter_compare]
    rw [filter_newTokenEvents_nil _ _ _
      (fun s v => by simp [Event.isPosEventFor])]
    rw [filter_tokenDeltaEvents_nil _ _ _
      (fun s a b => by simp [Event.isPosEventFor])
      (fun s a b => by simp [Event.isPosEventFor])]
    rw [filter_balanceEvents_nil _ _ _
      (fun x y => by simp [Event.isPosEventFor])]
    simp [openIncreaseEvents, openIncEvent, closeEvents, closeEvent,
      prevMapGet, posKey, Event.isPosEventFor]

/-- Witness for C7: closing the only position (AAA, long, 500) against
an empty current snapshot yields exactly one CLOSE; a concrete
long→short flip of BBB yields OPEN(short) then CLOSE(long). -/
theorem close_exact_and_side_flip_witness :
    (compare_and_generate_events
        { updated_at := none, usd_total := 0, tokens := [],
          positions := [{ symbol := "AAA", side := "long",
                          size_usd := 500 }] }
        { address := "w", usd_total := some 0, tokens := some [],
          positions := some [], source := "s" }).filter
      (Event.isCloseFor
        (posKey { symbol := "AAA", side := "long", size_usd := 500 })) =
      [.closePos "AAA" "long" 500] ∧
    (compare_and_generate_events
        { updated_at := none, usd_total := 0, tokens := [],
          positions := [{ symbol := "BBB", side := "long",
                          size_usd := 400 }] }
        { address := "w", usd_total := some 0, tokens := some [],
          positions := some [{ symbol := "BBB", side := "short",
                               size_usd := 250 }],
          source := "s" }).filter
      (fun e => Event.isPosEventFor ("BBB", "long") e
        || Event.isPosEventFor ("BBB", "short") e) =
      [.openPos "BBB" "short" 250, .closePos "BBB" "long" 400] :=
  ⟨close_exact_and_side_flip.1 _ _
      { symbol := "AAA", side := "long", size_usd := 500 }
      (by decide) (by decide) (by decide),
   close_exact_and_side_flip.2 none 0 [] "BBB" "w" "s" (some 0) (some [])
      400 250⟩

theorem dedupKeys_of_nodup {l : List String} (h : l.Nodup) :
    dedupKeys l = l := by
  induction l with
  | nil => rfl
  | cons k t ih =>
      rw [List.nodup_cons] at h
      rw [dedupKeys, ih h.2]
      congr 1
      refine List.filter_eq_self.mpr fun x hx => ?_
      have hne : x ≠ k := fun hxk => h.1 (hxk ▸ hx)
      simpa using hne

/-- Against an empty previous token mapping, stage 1 reports every
current token as new, in order. -/
theorem newTokenEvents_empty_prev (nt : List (String × ℚ)) :
    newTokenEvents [] nt = nt.map (fun kv => Event.newToken kv.1 kv.2) := by
  induction nt with
  | nil => rfl
  | cons kv t ih =>
      unfold newTokenEvents at ih ⊢
      rw [List.filterMap_cons]
      have hkv : newTokenEvent [] kv = some (.newToken kv.1 kv.2) := rfl
      rw [hkv, ih]
      rfl

/-- Against an empty previous position list, stage 4a reports every
current position as OPEN, in order. -/
theorem openIncreaseEvents_empty_prev (np : List Position) :
    openIncreaseEvents [] np =
      np.map (fun p => Event.openPos p.symbol p.side p.size_usd) := by
  induction np with
  | nil => rfl
  | cons p t ih =>
      unfold openIncreaseEvents at ih ⊢
      rw [List.filterMap_cons]
      have hp : openIncEvent [] p =
          some (.openPos p.symbol p.side p.size_usd) := rfl
      rw [hp, ih]
      rfl

/-- The BUY events of the delta stage against an empty previous mapping
are exactly the tokens with magnitude at least the noise floor 1. -/
theorem buyFilter_from_zero (nt : List (String × ℚ)) :
    (nt.filterMap (fun kv =>
      if ratAbs (kv.2 - 0) < 1 then none
      else if 0 < kv.2 then some (Event.buy kv.1 0 kv.2)
      else if kv.2 < 0 then some (Event.sell kv.1 0 kv.2)
      else none)).filter Event.isBuyEv =
    (nt.filter (fun kv => 1 ≤ kv.2)).map
      (fun kv => Event.buy kv.1 0 kv.2) := by
  simp only [sub_zero]
  induction nt with
  | nil => rfl
  | cons kv t ih =>
      rw [List.filterMap_cons]
      by_cases hb : (1 : ℚ) ≤ kv.2
      · have h1 : ¬(ratAbs kv.2 < 1) := by
          unfold ratAbs
          rw [if_neg (not_lt.mpr (le_trans zero_le_one hb))]
          exact not_lt.mpr hb
        have h2 : (0 : ℚ) < kv.2 := lt_of_lt_of_le zero_lt_one hb
        rw [if_neg h1, if_pos h2]
        dsimp only
        rw [List.filter_cons_of_pos (by simp [Event.isBuyEv])]
        rw [List.filter_cons_of_pos (by simpa using hb)]
        rw [List.map_cons, ih]
      · rw [List.filter_cons_of_neg (by simpa using hb)]
        by_cases hs : kv.2 < 0
        · by_cases habs : ratAbs kv.2 < 1
          · rw [if_pos habs]
            exact ih
          · rw [if_neg habs, if_neg (not_lt.mpr (le_of_lt hs)), if_pos hs]
            dsimp only
            rw [List.filter_cons_of_neg (by simp [Event.isBuyEv])]
            exact ih
        · have h0 : (0 : ℚ) ≤ kv.2 := not_lt.mp hs
          have h1 : ratAbs kv.2 < 1 := by
            unfold ratAbs
            rw [if_neg (not_lt.mpr h0)]
            exact not_le.mp hb
          rw [if_pos h1]
          exact ih

/-- C1 counterexample: with empty previous state, a token of magnitude
0 — not above any positive new-token threshold (the spec's default
new-token floor is 10) — still produces a "new token" event: the code
applies no magnitude minimum in the new-token stage. -/
theorem new_token_event_below_threshold :
    compare_and_generate_events defaultWalletState
        { address := "a", usd_total := some 0, tokens := some [("X", 0)],
          positions := some [], source := "s" } =
      [.newToken "X" 0] ∧ ¬((10 : ℚ) < 0) := by
  constructor
  · simp [compare_and_generate_events, newTokenEvents, newTokenEvent,
      tokenDeltaEvents, deltaEvent, balanceEvents, openIncreaseEvents,
      openIncEvent, closeEvents, closeEvent, unionKeys, dedupKeys,
      hasKey, dictFind, tokenGet, defaultWalletState, ratAbs,
      List.filterMap_cons]
  · norm_num

/-- C1 amended: for empty previous state, the diff emits exactly one
"new token" event per current token (no threshold applied), one BUY
from 0 for each token whose magnitude is at least the noise floor 1,
and one OPEN per current position. -/
theorem first_observation_events (snap : Snapshot)
    (hnd : ((snap.tokens.getD []).map Prod.fst).Nodup) :
    ((compare_and_generate_events defaultWalletState snap).filter
        Event.isNewTokenEv).length = (snap.tokens.getD []).length ∧
    (compare_and_generate_events defaultWalletState snap).filter
        Event.isBuyEv =
      ((snap.tokens.getD []).filter (fun kv => 1 ≤ kv.2)).map
        (fun kv => Event.buy kv.1 0 kv.2) ∧
    ((compare_and_generate_events defaultWalletState snap).filter
        Event.isOpenEv).length = (snap.positions.getD []).length := by
  have hclose : closeEvents defaultWalletState.positions
      (snap.positions.getD []) = [] := rfl
  have hdelta : tokenDeltaEvents defaultWalletState.tokens
      (snap.tokens.getD []) =
      (snap.tokens.getD []).filterMap (fun kv =>
        if ratAbs (kv.2 - 0) < 1 then none
        else if 0 < kv.2 then some (Event.buy kv.1 0 kv.2)
        else if kv.2 < 0 then some (Event.sell kv.1 0 kv.2)
        else none) := by
    show tokenDeltaEvents [] (snap.tokens.getD []) = _
    unfold tokenDeltaEvents
    have hu : unionKeys [] (snap.tokens.getD []) =
        (snap.tokens.getD []).map Prod.fst := by
      unfold unionKeys
      simp only [List.map_nil, List.nil_append]
      exact dedupKeys_of_nodup hnd
    rw [hu]
    exact filterMap_keys_tokenGet (fun k v =>
      if ratAbs (v - 0) < 1 then none
      else if 0 < v then some (Event.buy k 0 v)
      else if v < 0 then some (Event.sell k 0 v)
      else none) (snap.tokens.getD []) hnd
  refine ⟨?_, ?_, ?_⟩
  · rw [filter_compare]
    rw [filter_tokenDeltaEvents_nil _ _ _
      (fun s a b => by simp [Event.isNewTokenEv])
      (fun s a b => by simp [Event.isNewTokenEv])]
    rw [filter_balanceEvents_nil _ _ _
      (fun x y => by simp [Event.isNewTokenEv])]
    rw [filter_openIncreaseEvents_nil _ _ _
      (fun s sd v => by simp [Event.isNewTokenEv])
      (fun s sd a b => by simp [Event.isNewTokenEv])]
    rw [hclose]
    rw [show newTokenEvents defaultWalletState.tokens
        (snap.tokens.getD []) =
        (snap.tokens.getD []).map (fun kv => Event.newToken kv.1 kv.2) from
      newTokenEvents_empty_prev _]
    have hall : ((snap.tokens.getD []).map
        (fun kv => Event.newToken kv.1 kv.2)).filter Event.isNewTokenEv =
        (snap.tokens.getD []).map (fun kv => Event.newToken kv.1 kv.2) :=
      List.filter_eq_self.mpr fun e he => by
        obtain ⟨kv, -, rfl⟩ := List.mem_map.mp he
        rfl
    simp [hall]
  · rw [filter_compare]
    rw [filter_newTokenEvents_nil _ _ _
      (fun s v => by simp [Event.isBuyEv])]
    rw [filter_balanceEvents_nil _ _ _
      (fun x y => by simp [Event.isBuyEv])]
    rw [filter_openIncreaseEvents_nil _ _ _
      (fun s sd v => by simp [Event.isBuyEv])
      (fun s sd a b => by simp [Event.isBuyEv])]
    rw [hclose, hdelta, buyFilter_from_zero]
    simp
  · rw [filter_compare]
    rw [filter_newTokenEvents_nil _ _ _
      (fun s v => by simp [Event.isOpenEv])]
    rw [filter_tokenDeltaEvents_nil _ _ _
      (fun s a b => by simp [Event.isOpenEv])
      (fun s a b => by simp [Event.isOpenEv])]
    rw [filter_balanceEvents_nil _ _ _
      (fun x y => by simp [Event.isOpenEv])]
    rw [hclose]
    rw [show openIncreaseEvents defaultWalletState.positions
        (snap.positions.getD []) =
        (snap.positions.getD []).map
          (fun p => Event.openPos p.symbol p.side p.size_usd) from
      openIncreaseEvents_empty_prev _]
    have hall : ((snap.positions.getD []).map
        (fun p => Event.openPos p.symbol p.side p.size_usd)).filter
        Event.isOpenEv =
        (snap.positions.getD []).map
          (fun p => Event.openPos p.symbol p.side p.size_usd) :=
      List.filter_eq_self.mpr fun e he => by
        obtain ⟨p, -, rfl⟩ := List.mem_map.mp he
        rfl
    simp [hall]

/-- Witness for the amended C1: first observation of two tokens
(BTC at 3, X at 0) and one position yields two "new token" events, one
BUY (only BTC reaches the noise floor) and one OPEN. -/
theorem first_observation_events_witness :
    ((compare_and_generate_events defaultWalletState
        { address := "w", usd_total := some 0,
          tokens := some [("BTC", 3), ("X", 0)],
          positions := some [{ symbol := "E", side := "long",
                               size_usd := 50 }],
          source := "s" }).filter Event.isNewTokenEv).length =
      ([("BTC", (3 : ℚ)), ("X", 0)]).length ∧
    (compare_and_generate_events defaultWalletState
        { address := "w", usd_total := some 0,
          tokens := some [("BTC", 3), ("X", 0)],
          positions := some [{ symbol := "E", side := "long",
                               size_usd := 50 }],
          source := "s" }).filter Event.isBuyEv =
      (([("BTC", (3 : ℚ)), ("X", 0)]).filter (fun kv => 1 ≤ kv.2)).map
        (fun kv => Event.buy kv.1 0 kv.2) ∧
    ((compare_and_generate_events defaultWalletState
        { address := "w", usd_total := some 0,
          tokens := some [("BTC", 3), ("X", 0)],
          positions := some [{ symbol := "E", side := "long",
                               size_usd := 50 }],
          source := "s" }).filter Event.isOpenEv).length =
      ([{ symbol := "E", side := "long",
          size_usd := (50 : ℚ) }] : List Position).length :=
  first_observation_events
    { address := "w", usd_total := some 0,
      tokens := some [("BTC", 3), ("X", 0)],
      positions := some [{ symbol := "E", side := "long", size_usd := 50 }],
      source := "s" }
    (by decide)

end SignalBot

-- sanity: the spec's token scenario (noise floor 1): BTC 100→250, ETH new at 40
example :
    SignalBot.compare_and_generate_events
      { updated_at := none, usd_total := 0, tokens := [("BTC", 100)],
        positions := [] }
      { address := "a", usd_total := some 0,
        tokens := some [("BTC", 250), ("ETH", 40)], positions := some [],
        source := "s" } =
    [.newToken "ETH" 40, .buy "BTC" 100 250, .buy "ETH" 0 40] := by
  simp [SignalBot.compare_and_generate_events, SignalBot.newTokenEvents,
    SignalBot.newTokenEvent, SignalBot.tokenDeltaEvents, SignalBot.deltaEvent,
    SignalBot.balanceEvents, SignalBot.openIncreaseEvents,
    SignalBot.openIncEvent, SignalBot.closeEvents, SignalBot.closeEvent,
    SignalBot.unionKeys, SignalBot.dedupKeys, SignalBot.hasKey,
    SignalBot.dictFind, SignalBot.tokenGet, SignalBot.prevMapGet,
    SignalBot.ratAbs, List.filterMap_cons]
  norm_num
